import Mathlib

/-!
Formal model of the admin subscription service.

The model covers the server-side subscription registry and broadcast engine
(`admin.go`, package `server`) and the observer client's latest-frame cache
(`app.go`, package `main`).

Go maps are modelled as association lists with the usual first-occurrence
lookup; Go map assignment replaces the entry for an existing key and appends
otherwise, and Go map deletion filters the key out.  Go channels of pointers
are modelled as FIFO lists of `Option` values (a `none` element is a nil
pointer in the queue), bounded by the buffer size; the non-blocking
`select`-with-`default` send is modelled as an append that is dropped when
the queue is at capacity.  The `sync.Once` guard of a subscriber's `close`
is modelled by a boolean `onceDone` flag.
-/

/-- FrameData mirrors `proto.FrameData`: agent id, opaque image payload bytes,
millisecond timestamp, and the is-preview flag. -/
structure FrameData where
  agentId : String
  imageData : List Nat
  timestamp : Int
  isPreview : Bool
deriving DecidableEq, Repr

/-- EventData mirrors `proto.EventData`: agent id plus an opaque payload. -/
structure EventData where
  agentId : String
  payload : List Nat
deriving DecidableEq, Repr

/-- Channel buffer size constant from `admin.go`. -/
def FRAME_CHANNEL_BUFFER_SIZE : Nat := 4096

/-- Reserved timestamp that signals an agent going offline (`admin.go`). -/
def OFFLINE_TIMESTAMP : Int := 0

/-- adminSubscriber holds one admin's subscription state: its id, the two
bounded channels (as FIFO lists of possibly-nil pointers), the closed state
of each channel, and the `sync.Once` done flag guarding `close`. -/
structure adminSubscriber where
  adminId : String
  frameChan : List (Option FrameData)
  eventChan : List (Option EventData)
  frameChanClosed : Bool
  eventChanClosed : Bool
  onceDone : Bool
deriving DecidableEq, Repr

/-- newAdminSubscriber creates a subscriber with two empty open channels. -/
def newAdminSubscriber (adminId : String) : adminSubscriber :=
  { adminId := adminId
    frameChan := []
    eventChan := []
    frameChanClosed := false
    eventChanClosed := false
    onceDone := false }

/-- newOfflineFrame builds the FrameData that represents an agent going
offline: empty image data, timestamp `OFFLINE_TIMESTAMP`, is-preview true. -/
def newOfflineFrame (agentId : String) : FrameData :=
  { agentId := agentId
    imageData := []
    timestamp := OFFLINE_TIMESTAMP
    isPreview := true }

/-- isOfflineFrame decides whether a frame is the offline signal: a non-nil
frame whose timestamp is `OFFLINE_TIMESTAMP` and whose image data is empty. -/
def isOfflineFrame : Option FrameData → Bool
  | none => false
  | some frame => frame.timestamp == OFFLINE_TIMESTAMP && frame.imageData.length == 0

/-- close runs the channel-closing work under the `sync.Once` guard: on the
first call both channels are closed and the once flag is set; later calls do
nothing. -/
def adminSubscriber.close (a : adminSubscriber) : adminSubscriber :=
  if a.onceDone then a
  else { a with frameChanClosed := true, eventChanClosed := true, onceDone := true }

/-- mapLookup is Go map indexing on an association list: the value at the
first occurrence of the key, if any. -/
def mapLookup {α : Type} (k : String) : List (String × α) → Option α
  | [] => none
  | p :: rest => if p.1 = k then some p.2 else mapLookup k rest

/-- mapInsert is Go map assignment `m[k] = v`: replace the entry at the key
if present, append it otherwise. -/
def mapInsert {α : Type} (k : String) (v : α) : List (String × α) → List (String × α)
  | [] => [(k, v)]
  | p :: rest => if p.1 = k then (k, v) :: rest else p :: mapInsert k v rest

/-- mapErase is Go map deletion `delete(m, k)`: remove the key's entry;
deleting an absent key changes nothing. -/
def mapErase {α : Type} (k : String) (m : List (String × α)) : List (String × α) :=
  m.filter (fun p => p.1 ≠ k)

/-- mapLookup2 indexes a two-level map: `m[k1][k2]` with nil inner treated
as absent. -/
def mapLookup2 {α : Type} (k1 k2 : String) (m : List (String × List (String × α))) : Option α :=
  (mapLookup k1 m).bind (mapLookup k2)

/-- AdminService holds the three subscriber registries of `admin.go`:
overview keyed by adminId, detail and events keyed by adminId then agentId. -/
structure AdminService where
  overviewSubs : List (String × adminSubscriber)
  detailSubs : List (String × List (String × adminSubscriber))
  eventSubs : List (String × List (String × adminSubscriber))
deriving DecidableEq, Repr

/-- NewAdminService creates the service with three empty registries. -/
def NewAdminService : AdminService :=
  { overviewSubs := [], detailSubs := [], eventSubs := [] }

/-- registerOverview is the registration step of `SubscribeOverview`:
`s.overviewSubs[adminId] = sub`. -/
def registerOverview (s : AdminService) (adminId : String) (sub : adminSubscriber) : AdminService :=
  { s with overviewSubs := mapInsert adminId sub s.overviewSubs }

/-- unregisterOverview is the deferred teardown step of `SubscribeOverview`:
`delete(s.overviewSubs, adminId)`, with no check of which subscriber the key
currently holds. -/
def unregisterOverview (s : AdminService) (adminId : String) : AdminService :=
  { s with overviewSubs := mapErase adminId s.overviewSubs }

/-- registerDetail is the registration step of `SubscribeDetail`: create the
inner map for adminId when absent, then `s.detailSubs[adminId][agentId] = sub`. -/
def registerDetail (s : AdminService) (adminId agentId : String) (sub : adminSubscriber) : AdminService :=
  { s with detailSubs :=
      mapInsert adminId (mapInsert agentId sub ((mapLookup adminId s.detailSubs).getD [])) s.detailSubs }

/-- unregisterKey2 is the two-level removal both deferred teardown blocks
perform: `delete(m[adminId], agentId)` (a delete on an absent/nil inner map
being a no-op) followed by removal of the outer entry when the inner map is
now empty. -/
def unregisterKey2 {α : Type} (adminId agentId : String)
    (m : List (String × List (String × α))) : List (String × List (String × α)) :=
  if (mapErase agentId ((mapLookup adminId m).getD [])).isEmpty
  then mapErase adminId m
  else mapInsert adminId (mapErase agentId ((mapLookup adminId m).getD [])) m

/-- unregisterDetail is the deferred teardown step of `SubscribeDetail`:
the two-level removal applied to the detail registry. -/
def unregisterDetail (s : AdminService) (adminId agentId : String) : AdminService :=
  { s with detailSubs := unregisterKey2 adminId agentId s.detailSubs }

/-- registerEvents is the registration step of `SubscribeEvents`, the same
two-level insertion on `eventSubs`. -/
def registerEvents (s : AdminService) (adminId agentId : String) (sub : adminSubscriber) : AdminService :=
  { s with eventSubs :=
      mapInsert adminId (mapInsert agentId sub ((mapLookup adminId s.eventSubs).getD [])) s.eventSubs }

/-- unregisterEvents is the deferred teardown step of `SubscribeEvents`, the
same two-level removal applied to the events registry. -/
def unregisterEvents (s : AdminService) (adminId agentId : String) : AdminService :=
  { s with eventSubs := unregisterKey2 adminId agentId s.eventSubs }

/-- enqueueFrame models the non-blocking send
`select case sub.frameChan <- frame default drop`: append when the buffer
has room, drop (leave the subscriber unchanged) when it is at capacity. -/
def enqueueFrame (sub : adminSubscriber) (frame : Option FrameData) : adminSubscriber :=
  if sub.frameChan.length < FRAME_CHANNEL_BUFFER_SIZE then
    { sub with frameChan := sub.frameChan ++ [frame] }
  else sub

/-- enqueueEvent models the same non-blocking send on the event channel. -/
def enqueueEvent (sub : adminSubscriber) (event : Option EventData) : adminSubscriber :=
  if sub.eventChan.length < FRAME_CHANNEL_BUFFER_SIZE then
    { sub with eventChan := sub.eventChan ++ [event] }
  else sub

/-- broadcastOverview sends the frame to every overview subscriber with the
non-blocking enqueue. -/
def broadcastOverview (s : AdminService) (frame : Option FrameData) : AdminService :=
  { s with overviewSubs := s.overviewSubs.map (fun p => (p.1, enqueueFrame p.2 frame)) }

/-- broadcastDetail sends the frame to every detail subscriber whose inner
entry is keyed by the given agentId, with the non-blocking enqueue. -/
def broadcastDetail (s : AdminService) (agentId : String) (frame : Option FrameData) : AdminService :=
  { s with detailSubs := s.detailSubs.map (fun p =>
      (p.1, p.2.map (fun q => if q.1 = agentId then (q.1, enqueueFrame q.2 frame) else q))) }

/-- broadcastEvents sends the event to every events subscriber whose inner
entry is keyed by the given agentId, with the non-blocking enqueue.  There is
no nil check: a nil event is enqueued like any other. -/
def broadcastEvents (s : AdminService) (agentId : String) (event : Option EventData) : AdminService :=
  { s with eventSubs := s.eventSubs.map (fun p =>
      (p.1, p.2.map (fun q => if q.1 = agentId then (q.1, enqueueEvent q.2 event) else q))) }

/-- PublishAgentOffline builds the offline frame and sends it through the
overview broadcast and then the detail broadcast for the given agent. -/
def PublishAgentOffline (s : AdminService) (agentId : String) : AdminService :=
  broadcastDetail (broadcastOverview s (some (newOfflineFrame agentId))) agentId
    (some (newOfflineFrame agentId))

/-- HandleIncomingFrame distributes an incoming frame: a nil frame returns at
once; otherwise the frame goes to the overview broadcast and to the detail
broadcast keyed by the frame's agent id (the offline check afterwards only
logs). -/
def HandleIncomingFrame (s : AdminService) (frame : Option FrameData) : AdminService :=
  match frame with
  | none => s
  | some f => broadcastDetail (broadcastOverview s (some f)) f.agentId (some f)

/-- publishFrames folds a sequence of `HandleIncomingFrame` calls over the
service, one per frame, in order. -/
def publishFrames (s : AdminService) (frames : List FrameData) : AdminService :=
  frames.foldl (fun st f => HandleIncomingFrame st (some f)) s

/-- overviewKeys lists the adminIds registered in the overview registry. -/
def overviewKeys (s : AdminService) : List String :=
  s.overviewSubs.map Prod.fst

/-- detailKeys lists the adminIds with, for each, the agentIds registered in
the detail registry. -/
def detailKeys (s : AdminService) : List (String × List String) :=
  s.detailSubs.map (fun p => (p.1, p.2.map Prod.fst))

/-- eventKeys lists the adminIds with, for each, the agentIds registered in
the events registry. -/
def eventKeys (s : AdminService) : List (String × List String) :=
  s.eventSubs.map (fun p => (p.1, p.2.map Prod.fst))

/-- frameSnapshot mirrors the client cache record of `app.go`: agent id,
base64 image string, is-preview flag, timestamp. -/
structure frameSnapshot where
  agentID : String
  imageBase : String
  isPreview : Bool
  timestamp : Int
deriving DecidableEq, Repr

/-- base64Alphabet is the standard base64 alphabet used by
`base64.StdEncoding`. -/
def base64Alphabet : String :=
  "ABCDEFGHIJKLMNOPQRSTUVWXYZabcdefghijklmnopqrstuvwxyz0123456789+/"

/-- base64Char looks up one character of the standard base64 alphabet. -/
def base64Char (n : Nat) : Char :=
  base64Alphabet.toList.getD n '='

/-- base64Encode is standard base64 of a byte sequence, as produced by
`base64.StdEncoding.EncodeToString`. -/
def base64Encode : List Nat → String
  | [] => ""
  | [b1] =>
      String.mk [base64Char (b1 / 4 % 64), base64Char (b1 % 4 * 16), '=', '=']
  | [b1, b2] =>
      String.mk [base64Char (b1 / 4 % 64), base64Char (b1 % 4 * 16 + b2 / 16),
        base64Char (b2 % 16 * 4), '=']
  | b1 :: b2 :: b3 :: rest =>
      String.mk [base64Char (b1 / 4 % 64), base64Char (b1 % 4 * 16 + b2 / 16),
        base64Char (b2 % 16 * 4 + b3 / 64), base64Char (b3 % 64)] ++ base64Encode rest

/-- storeFrame caches the latest snapshot for the frame's agent id,
unconditionally overwriting any previous snapshot (`app.go`). -/
def storeFrame (latestFrames : List (String × frameSnapshot)) (f : FrameData)
    (base64Str : String) : List (String × frameSnapshot) :=
  mapInsert f.agentId
    { agentID := f.agentId
      imageBase := base64Str
      isPreview := f.isPreview
      timestamp := f.timestamp } latestFrames

/-- GetLatestFrames returns the cached snapshots (`app.go`). -/
def GetLatestFrames (latestFrames : List (String × frameSnapshot)) : List frameSnapshot :=
  latestFrames.map Prod.snd

/-- receiveOverviewFrame is the body of the `subscribeOverview` receive loop
that touches the cache: base64-encode the image data and store the snapshot. -/
def receiveOverviewFrame (latestFrames : List (String × frameSnapshot))
    (f : FrameData) : List (String × frameSnapshot) :=
  storeFrame latestFrames f (base64Encode f.imageData)

/-- fullFrameChan is a frame queue at capacity: 4096 queued frames. -/
def fullFrameChan : List (Option FrameData) :=
  List.replicate FRAME_CHANNEL_BUFFER_SIZE none

/-- fullOverviewSub is an overview subscriber whose frame queue is at capacity. -/
def fullOverviewSub : adminSubscriber :=
  { newAdminSubscriber "o1" with frameChan := fullFrameChan }

/-- fullOverviewService is a registry whose only overview subscriber has a
frame queue at capacity. -/
def fullOverviewService : AdminService :=
  { overviewSubs := [("o1", fullOverviewSub)], detailSubs := [], eventSubs := [] }

/-- eventsOnlyService is a registry with a single events subscriber for
observer obs and agent a1. -/
def eventsOnlyService : AdminService :=
  { overviewSubs := [], detailSubs := [], eventSubs := [("obs", [("a1", newAdminSubscriber "obs")])] }

/-- sampleFrame is a concrete ordinary frame produced by agent a1. -/
def sampleFrame : FrameData :=
  { agentId := "a1", imageData := [1, 2, 3], timestamp := 100, isPreview := true }

/-! ### Association-map lemmas -/

theorem mapLookup_insert_self {α : Type} (k : String) (v : α) (m : List (String × α)) :
    mapLookup k (mapInsert k v m) = some v := by
  induction m with
  | nil => simp [mapInsert, mapLookup]
  | cons p rest ih =>
      by_cases h : p.1 = k
      · simp [mapInsert, mapLookup, h]
      · simp [mapInsert, mapLookup, h, ih]

theorem mapLookup_insert_ne {α : Type} (k k2 : String) (v : α) (m : List (String × α))
    (h : k2 ≠ k) : mapLookup k2 (mapInsert k v m) = mapLookup k2 m := by
  have h2 : ¬ k = k2 := Ne.symm h
  induction m with
  | nil => simp [mapInsert, mapLookup, h2]
  | cons p rest ih =>
      by_cases hp : p.1 = k
      · simp [mapInsert, mapLookup, hp, h2]
      · simp [mapInsert, mapLookup, hp, ih]

theorem mapLookup_erase_self {α : Type} (k : String) (m : List (String × α)) :
    mapLookup k (mapErase k m) = none := by
  induction m with
  | nil => simp [mapErase, mapLookup]
  | cons p rest ih =>
      by_cases h : p.1 = k
      · simpa [mapErase, List.filter_cons, h] using ih
      · simpa [mapErase, List.filter_cons, mapLookup, h] using ih

theorem mapLookup_erase_ne {α : Type} (k k2 : String) (m : List (String × α))
    (h : k2 ≠ k) : mapLookup k2 (mapErase k m) = mapLookup k2 m := by
  have h2 : ¬ k = k2 := Ne.symm h
  induction m with
  | nil => simp [mapErase, mapLookup]
  | cons p rest ih =>
      by_cases hp : p.1 = k
      · have hp2 : ¬ p.1 = k2 := by
          rw [hp]
          exact h2
        simpa [mapErase, List.filter_cons, mapLookup, hp, hp2, h2] using ih
      · by_cases hp2 : p.1 = k2
        · simp [mapErase, List.filter_cons, mapLookup, hp, hp2, h, h2]
        · simpa [mapErase, List.filter_cons, mapLookup, hp, hp2] using ih

theorem mapErase_absent {α : Type} (k : String) (m : List (String × α))
    (h : mapLookup k m = none) : mapErase k m = m := by
  induction m with
  | nil => rfl
  | cons p rest ih =>
      simp only [mapLookup] at h
      by_cases hp : p.1 = k
      · rw [if_pos hp] at h
        exact absurd h (by simp)
      · rw [if_neg hp] at h
        simp only [mapErase, List.filter_cons, decide_not]
        rw [if_pos (by simp [hp])]
        have := ih h
        simp only [mapErase, decide_not] at this
        rw [this]

theorem mapInsert_same {α : Type} (k : String) (v : α) (m : List (String × α))
    (h : mapLookup k m = some v) : mapInsert k v m = m := by
  induction m with
  | nil => simp [mapLookup] at h
  | cons p rest ih =>
      simp only [mapLookup] at h
      by_cases hp : p.1 = k
      · rw [if_pos hp] at h
        have hv : p.2 = v := Option.some_inj.mp h
        simp only [mapInsert, if_pos hp]
        rw [← hp, ← hv]
      · rw [if_neg hp] at h
        simp only [mapInsert, if_neg hp]
        rw [ih h]

theorem mapLookup_valmap {α β : Type} (k : String) (g : α → β) (m : List (String × α)) :
    mapLookup k (m.map (fun p => (p.1, g p.2))) = (mapLookup k m).map g := by
  induction m with
  | nil => simp [mapLookup]
  | cons p rest ih =>
      by_cases hp : p.1 = k
      · simp [mapLookup, hp]
      · simp [mapLookup, hp, ih]

theorem mapLookup_condmap {α : Type} (a k : String) (g : α → α) (m : List (String × α)) :
    mapLookup k (m.map (fun q => if q.1 = a then (q.1, g q.2) else q))
      = if k = a then (mapLookup k m).map g else mapLookup k m := by
  induction m with
  | nil => by_cases h : k = a <;> simp [mapLookup, h]
  | cons p rest ih =>
      by_cases hpa : p.1 = a
      · by_cases hpk : p.1 = k
        · have hka : k = a := by
            rw [← hpk]
            exact hpa
          simp [mapLookup, hpa, hpk, hka]
        · have hak : ¬ a = k := by
            intro e
            rw [← hpa] at e
            exact hpk e
          simp [mapLookup, hpa, hpk, hak, ih]
      · by_cases hpk : p.1 = k
        · have hka : ¬ k = a := by
            rw [← hpk]
            exact hpa
          simp [mapLookup, hpa, hpk, hka]
        · simp [mapLookup, hpa, hpk, ih]

theorem mem_mapInsert {α : Type} (p : String × α) (k : String) (v : α)
    (m : List (String × α)) (h : p ∈ mapInsert k v m) : p = (k, v) ∨ p ∈ m := by
  induction m with
  | nil =>
      simp only [mapInsert] at h
      exact Or.inl (List.mem_singleton.mp h)
  | cons q rest ih =>
      simp only [mapInsert] at h
      by_cases hq : q.1 = k
      · rw [if_pos hq] at h
        rcases List.mem_cons.mp h with h | h
        · exact Or.inl h
        · exact Or.inr (List.mem_cons_of_mem q h)
      · rw [if_neg hq] at h
        rcases List.mem_cons.mp h with h | h
        · refine Or.inr ?_
          rw [h]
          exact List.mem_cons_self q rest
        · rcases ih h with h2 | h2
          · exact Or.inl h2
          · exact Or.inr (List.mem_cons_of_mem q h2)

theorem mem_keys_insert {α : Type} (x k : String) (v : α) (m : List (String × α))
    (h : x ∈ (mapInsert k v m).map Prod.fst) : x = k ∨ x ∈ m.map Prod.fst := by
  rcases List.mem_map.mp h with ⟨p, hp, hx⟩
  rcases mem_mapInsert p k v m hp with h2 | h2
  · refine Or.inl ?_
    rw [← hx, h2]
  · exact Or.inr (List.mem_map.mpr ⟨p, h2, hx⟩)

theorem nodupkeys_insert {α : Type} (k : String) (v : α) (m : List (String × α))
    (h : (m.map Prod.fst).Nodup) : ((mapInsert k v m).map Prod.fst).Nodup := by
  induction m with
  | nil => simp [mapInsert]
  | cons p rest ih =>
      simp only [List.map_cons, List.nodup_cons] at h
      by_cases hp : p.1 = k
      · simp only [mapInsert, if_pos hp, List.map_cons, List.nodup_cons]
        refine ⟨?_, h.2⟩
        rw [← hp]
        exact h.1
      · simp only [mapInsert, if_neg hp, List.map_cons, List.nodup_cons]
        refine ⟨fun hx => ?_, ih h.2⟩
        rcases mem_keys_insert p.1 k v rest hx with h2 | h2
        · exact hp h2
        · exact h.1 h2

theorem nodupkeys_erase {α : Type} (k : String) (m : List (String × α))
    (h : (m.map Prod.fst).Nodup) : ((mapErase k m).map Prod.fst).Nodup := by
  have hsub : List.Sublist ((mapErase k m).map Prod.fst) (m.map Prod.fst) :=
    List.Sublist.map Prod.fst (List.filter_sublist m)
  exact List.Nodup.sublist hsub h

theorem lookup_mem_snd {α : Type} (k : String) (v : α) (m : List (String × α))
    (h : mapLookup k m = some v) : v ∈ m.map Prod.snd := by
  induction m with
  | nil => simp [mapLookup] at h
  | cons p rest ih =>
      simp only [mapLookup] at h
      by_cases hp : p.1 = k
      · rw [if_pos hp] at h
        have hv : p.2 = v := Option.some_inj.mp h
        rw [List.map_cons, ← hv]
        exact List.mem_cons_self _ _
      · rw [if_neg hp] at h
        rw [List.map_cons]
        exact List.mem_cons_of_mem _ (ih h)

theorem lookup_mem {α : Type} (k : String) (v : α) (m : List (String × α))
    (h : mapLookup k m = some v) : (k, v) ∈ m := by
  induction m with
  | nil => simp [mapLookup] at h
  | cons p rest ih =>
      simp only [mapLookup] at h
      by_cases hp : p.1 = k
      · rw [if_pos hp] at h
        have hv : p.2 = v := Option.some_inj.mp h
        rw [← hp, ← hv]
        exact List.mem_cons_self p rest
      · rw [if_neg hp] at h
        exact List.mem_cons_of_mem p (ih h)

/-! ### Enqueue and broadcast lemmas -/

theorem enqueueFrame_room (sub : adminSubscriber) (f : Option FrameData)
    (h : sub.frameChan.length < FRAME_CHANNEL_BUFFER_SIZE) :
    enqueueFrame sub f = { sub with frameChan := sub.frameChan ++ [f] } := by
  simp [enqueueFrame, h]

theorem enqueueFrame_full (sub : adminSubscriber) (f : Option FrameData)
    (h : ¬ sub.frameChan.length < FRAME_CHANNEL_BUFFER_SIZE) :
    enqueueFrame sub f = sub := by
  simp [enqueueFrame, h]

theorem enqueueEvent_room (sub : adminSubscriber) (e : Option EventData)
    (h : sub.eventChan.length < FRAME_CHANNEL_BUFFER_SIZE) :
    enqueueEvent sub e = { sub with eventChan := sub.eventChan ++ [e] } := by
  simp [enqueueEvent, h]

theorem enqueueEvent_full (sub : adminSubscriber) (e : Option EventData)
    (h : ¬ sub.eventChan.length < FRAME_CHANNEL_BUFFER_SIZE) :
    enqueueEvent sub e = sub := by
  simp [enqueueEvent, h]

theorem lookup_broadcastOverview (s : AdminService) (f : Option FrameData) (o : String) :
    mapLookup o (broadcastOverview s f).overviewSubs
      = (mapLookup o s.overviewSubs).map (fun sub => enqueueFrame sub f) :=
  mapLookup_valmap o (fun sub => enqueueFrame sub f) s.overviewSubs

theorem lookup2_broadcastDetail_hit (s : AdminService) (f : Option FrameData) (a d : String) :
    mapLookup2 d a (broadcastDetail s a f).detailSubs
      = (mapLookup2 d a s.detailSubs).map (fun sub => enqueueFrame sub f) := by
  show mapLookup2 d a (s.detailSubs.map _) = _
  unfold mapLookup2
  rw [mapLookup_valmap]
  cases h : mapLookup d s.detailSubs with
  | none => rfl
  | some inner =>
      have hc := mapLookup_condmap a a (fun sub => enqueueFrame sub f) inner
      rw [if_pos rfl] at hc
      exact hc

theorem lookup2_broadcastDetail_miss (s : AdminService) (f : Option FrameData) (a b d : String)
    (h : b ≠ a) :
    mapLookup2 d b (broadcastDetail s a f).detailSubs = mapLookup2 d b s.detailSubs := by
  show mapLookup2 d b (s.detailSubs.map _) = _
  unfold mapLookup2
  rw [mapLookup_valmap]
  cases hd : mapLookup d s.detailSubs with
  | none => rfl
  | some inner =>
      have hc := mapLookup_condmap a b (fun sub => enqueueFrame sub f) inner
      rw [if_neg h] at hc
      exact hc

theorem lookup2_broadcastEvents_hit (s : AdminService) (e : Option EventData) (a d : String) :
    mapLookup2 d a (broadcastEvents s a e).eventSubs
      = (mapLookup2 d a s.eventSubs).map (fun sub => enqueueEvent sub e) := by
  show mapLookup2 d a (s.eventSubs.map _) = _
  unfold mapLookup2
  rw [mapLookup_valmap]
  cases h : mapLookup d s.eventSubs with
  | none => rfl
  | some inner =>
      have hc := mapLookup_condmap a a (fun sub => enqueueEvent sub e) inner
      rw [if_pos rfl] at hc
      exact hc

theorem keys_valmap {α β : Type} (g : α → β) (m : List (String × α)) :
    (m.map (fun p => (p.1, g p.2))).map Prod.fst = m.map Prod.fst := by
  induction m with
  | nil => rfl
  | cons p rest ih => simp [ih]

theorem keys_condmap {α : Type} (a : String) (g : α → α) (m : List (String × α)) :
    (m.map (fun q => if q.1 = a then (q.1, g q.2) else q)).map Prod.fst = m.map Prod.fst := by
  induction m with
  | nil => rfl
  | cons p rest ih =>
      by_cases hp : p.1 = a
      · simp [hp, ih]
      · simp [hp, ih]

theorem keys2_condmap {α : Type} (a : String) (g : α → α)
    (m : List (String × List (String × α))) :
    ((m.map (fun p => (p.1, p.2.map (fun q => if q.1 = a then (q.1, g q.2) else q)))).map
        (fun p => (p.1, p.2.map Prod.fst)))
      = m.map (fun p => (p.1, p.2.map Prod.fst)) := by
  induction m with
  | nil => rfl
  | cons p rest ih =>
      simp [ih, keys_condmap]
      intro x y _
      split <;> rfl

/-! ### Claim theorems -/

/-- C9: every broadcast operation (broadcastOverview, broadcastDetail,
broadcastEvents, and the entry points HandleIncomingFrame and
PublishAgentOffline built on them) leaves the three registry maps' key
structure unchanged, and the maps a broadcast does not target are unchanged
outright: only subscriber queue contents change. -/
theorem broadcast_preserves_registry_shape (s : AdminService) (frame : Option FrameData)
    (agentId aid : String) (event : Option EventData) :
    (overviewKeys (broadcastOverview s frame) = overviewKeys s ∧
      (broadcastOverview s frame).detailSubs = s.detailSubs ∧
      (broadcastOverview s frame).eventSubs = s.eventSubs) ∧
    (detailKeys (broadcastDetail s agentId frame) = detailKeys s ∧
      (broadcastDetail s agentId frame).overviewSubs = s.overviewSubs ∧
      (broadcastDetail s agentId frame).eventSubs = s.eventSubs) ∧
    (eventKeys (broadcastEvents s agentId event) = eventKeys s ∧
      (broadcastEvents s agentId event).overviewSubs = s.overviewSubs ∧
      (broadcastEvents s agentId event).detailSubs = s.detailSubs) ∧
    (overviewKeys (HandleIncomingFrame s frame) = overviewKeys s ∧
      detailKeys (HandleIncomingFrame s frame) = detailKeys s ∧
      eventKeys (HandleIncomingFrame s frame) = eventKeys s) ∧
    (overviewKeys (PublishAgentOffline s aid) = overviewKeys s ∧
      detailKeys (PublishAgentOffline s aid) = detailKeys s ∧
      eventKeys (PublishAgentOffline s aid) = eventKeys s) := by
  refine ⟨⟨?_, rfl, rfl⟩, ⟨?_, rfl, rfl⟩, ⟨?_, rfl, rfl⟩, ⟨?_, ?_, ?_⟩, ⟨?_, ?_, ?_⟩⟩
  · exact keys_valmap (fun sub => enqueueFrame sub frame) s.overviewSubs
  · exact keys2_condmap agentId (fun sub => enqueueFrame sub frame) s.detailSubs
  · exact keys2_condmap agentId (fun sub => enqueueEvent sub event) s.eventSubs
  · cases frame with
    | none => rfl
    | some f => exact keys_valmap (fun sub => enqueueFrame sub (some f)) s.overviewSubs
  · cases frame with
    | none => rfl
    | some f => exact keys2_condmap f.agentId (fun sub => enqueueFrame sub (some f)) s.detailSubs
  · cases frame with
    | none => rfl
    | some f => rfl
  · exact keys_valmap (fun sub => enqueueFrame sub (some (newOfflineFrame aid))) s.overviewSubs
  · exact keys2_condmap aid (fun sub => enqueueFrame sub (some (newOfflineFrame aid))) s.detailSubs
  · rfl

/-- C7: closing a subscriber performs the channel-closing work exactly once:
the first close closes both channels and sets the once flag, and a second
close of an already-closed subscriber is a no-op that changes nothing and
cannot fail. -/
theorem close_idempotent (a : adminSubscriber) (id : String) :
    adminSubscriber.close (adminSubscriber.close a) = adminSubscriber.close a ∧
    (adminSubscriber.close a).onceDone = true ∧
    (adminSubscriber.close (newAdminSubscriber id)).frameChanClosed = true ∧
    (adminSubscriber.close (newAdminSubscriber id)).eventChanClosed = true := by
  refine ⟨?_, ?_, rfl, rfl⟩
  · by_cases h : a.onceDone <;> simp [adminSubscriber.close, h]
  · by_cases h : a.onceDone <;> simp [adminSubscriber.close, h]

/-- C6 (amended): isOfflineFrame recognizes a non-nil frame as the offline
marker exactly when its payload is empty and its timestamp is 0; the
is-preview flag is not examined.  In particular isOfflineFrame accepts
newOfflineFrame(agentId) for every agentId and rejects a nil frame. -/
theorem isOfflineFrame_shape (f : FrameData) (a : String) :
    (isOfflineFrame (some f) = true ↔ f.timestamp = 0 ∧ f.imageData = []) ∧
    isOfflineFrame (some (newOfflineFrame a)) = true ∧
    isOfflineFrame none = false := by
  refine ⟨?_, by simp [isOfflineFrame, newOfflineFrame, OFFLINE_TIMESTAMP], rfl⟩
  simp [isOfflineFrame, OFFLINE_TIMESTAMP, List.length_eq_zero]

/-- C6 witness: the offline frame constructed for a concrete agent id is
recognized by isOfflineFrame. -/
theorem isOfflineFrame_shape_witness :
    isOfflineFrame (some (newOfflineFrame "agent-1")) = true :=
  (isOfflineFrame_shape (newOfflineFrame "agent-1") "agent-1").2.1

/-- C6 counterexample: a frame with empty payload and timestamp 0 but
is-preview false is still recognized as the offline marker, so recognition
does not require the is-preview flag that the claimed shape includes. -/
theorem isOfflineFrame_ignores_isPreview :
    isOfflineFrame (some (FrameData.mk "a1" [] 0 false)) = true ∧
    (FrameData.mk "a1" [] 0 false).isPreview = false := by
  exact ⟨rfl, rfl⟩

/-- C5 (amended): a nil incoming frame is a no-op for HandleIncomingFrame
(no queue changes, registry unchanged, nothing returned); but broadcastEvents
performs no nil check, so a published nil event is enqueued to a matching
events subscriber with queue space like any other item. -/
theorem nil_frame_noop_nil_event_enqueued (s : AdminService) (o a : String) :
    HandleIncomingFrame s none = s ∧
    (∀ inner sub, mapLookup o s.eventSubs = some inner → mapLookup a inner = some sub →
      sub.eventChan.length < FRAME_CHANNEL_BUFFER_SIZE →
      mapLookup2 o a (broadcastEvents s a none).eventSubs
        = some { sub with eventChan := sub.eventChan ++ [none] }) := by
  refine ⟨rfl, fun inner sub h1 h2 h3 => ?_⟩
  rw [lookup2_broadcastEvents_hit]
  have hs : mapLookup2 o a s.eventSubs = some sub := by
    unfold mapLookup2
    rw [h1]
    exact h2
  rw [hs]
  show some (enqueueEvent sub none) = _
  rw [enqueueEvent_room sub none h3]

/-- C5 witness: with one events subscriber registered for agent a1, the nil
event ends up in its queue. -/
theorem nil_frame_noop_nil_event_enqueued_witness :
    mapLookup2 "obs" "a1" (broadcastEvents eventsOnlyService "a1" none).eventSubs
      = some { newAdminSubscriber "obs" with eventChan := [none] } :=
  (nil_frame_noop_nil_event_enqueued eventsOnlyService "obs" "a1").2
    [("a1", newAdminSubscriber "obs")] (newAdminSubscriber "obs")
    (by decide) (by decide) (by decide)

/-- C5 counterexample: publishing a nil event is not a no-op: with one events
subscriber registered for agent a1, broadcastEvents with a nil event changes
that subscriber's queue, so the registry state differs afterwards. -/
theorem broadcastEvents_nil_event_enqueued :
    broadcastEvents eventsOnlyService "a1" none ≠ eventsOnlyService := by
  decide

/-- C1 (amended): PublishAgentOffline delivers exactly one FrameItem with
empty payload, timestamp 0 and isPreview true to every overview subscriber
and every detail subscriber keyed by the agentId whose frame queue is below
capacity (a queue at capacity drops the item), delivers nothing to detail
subscribers keyed by another agent, and touches no event subscriber. -/
theorem publishAgentOffline_delivers (s : AdminService) (agentId : String) :
    (newOfflineFrame agentId).imageData = [] ∧
    (newOfflineFrame agentId).timestamp = 0 ∧
    (newOfflineFrame agentId).isPreview = true ∧
    (∀ o sub, mapLookup o s.overviewSubs = some sub →
      sub.frameChan.length < FRAME_CHANNEL_BUFFER_SIZE →
      mapLookup o (PublishAgentOffline s agentId).overviewSubs
        = some { sub with frameChan := sub.frameChan ++ [some (newOfflineFrame agentId)] }) ∧
    (∀ d sub, mapLookup2 d agentId s.detailSubs = some sub →
      sub.frameChan.length < FRAME_CHANNEL_BUFFER_SIZE →
      mapLookup2 d agentId (PublishAgentOffline s agentId).detailSubs
        = some { sub with frameChan := sub.frameChan ++ [some (newOfflineFrame agentId)] }) ∧
    (∀ d b, b ≠ agentId →
      mapLookup2 d b (PublishAgentOffline s agentId).detailSubs
        = mapLookup2 d b s.detailSubs) ∧
    (PublishAgentOffline s agentId).eventSubs = s.eventSubs := by
  refine ⟨rfl, rfl, rfl, fun o sub h1 h2 => ?_, fun d sub h1 h2 => ?_,
    fun d b hb => ?_, rfl⟩
  · show mapLookup o (broadcastOverview s (some (newOfflineFrame agentId))).overviewSubs = _
    rw [lookup_broadcastOverview, h1]
    show some (enqueueFrame sub (some (newOfflineFrame agentId))) = _
    rw [enqueueFrame_room sub _ h2]
  · have hd : (broadcastOverview s (some (newOfflineFrame agentId))).detailSubs
        = s.detailSubs := rfl
    show mapLookup2 d agentId (broadcastDetail (broadcastOverview s
      (some (newOfflineFrame agentId))) agentId (some (newOfflineFrame agentId))).detailSubs = _
    rw [lookup2_broadcastDetail_hit]
    show (mapLookup2 d agentId s.detailSubs).map _ = _
    rw [h1]
    show some (enqueueFrame sub (some (newOfflineFrame agentId))) = _
    rw [enqueueFrame_room sub _ h2]
  · show mapLookup2 d b (broadcastDetail (broadcastOverview s
      (some (newOfflineFrame agentId))) agentId (some (newOfflineFrame agentId))).detailSubs = _
    rw [lookup2_broadcastDetail_miss _ _ _ _ _ hb]
    rfl

/-- C1 witness: in a registry with one overview subscriber, one detail
subscriber for agent a1 and one detail subscriber for agent b2, publishing
offline for a1 appends the offline frame to the first two queues and leaves
the third untouched. -/
theorem publishAgentOffline_delivers_witness :
    mapLookup "o1" (PublishAgentOffline
        (AdminService.mk [("o1", newAdminSubscriber "o1")]
          [("d1", [("a1", newAdminSubscriber "d1")]), ("d2", [("b2", newAdminSubscriber "d2")])]
          []) "a1").overviewSubs
      = some { newAdminSubscriber "o1" with frameChan := [some (newOfflineFrame "a1")] } ∧
    mapLookup2 "d1" "a1" (PublishAgentOffline
        (AdminService.mk [("o1", newAdminSubscriber "o1")]
          [("d1", [("a1", newAdminSubscriber "d1")]), ("d2", [("b2", newAdminSubscriber "d2")])]
          []) "a1").detailSubs
      = some { newAdminSubscriber "d1" with frameChan := [some (newOfflineFrame "a1")] } ∧
    mapLookup2 "d2" "b2" (PublishAgentOffline
        (AdminService.mk [("o1", newAdminSubscriber "o1")]
          [("d1", [("a1", newAdminSubscriber "d1")]), ("d2", [("b2", newAdminSubscriber "d2")])]
          []) "a1").detailSubs
      = mapLookup2 "d2" "b2"
          (AdminService.mk [("o1", newAdminSubscriber "o1")]
            [("d1", [("a1", newAdminSubscriber "d1")]), ("d2", [("b2", newAdminSubscriber "d2")])]
            []).detailSubs := by
  refine ⟨?_, ?_, ?_⟩
  · exact (publishAgentOffline_delivers
      (AdminService.mk [("o1", newAdminSubscriber "o1")]
        [("d1", [("a1", newAdminSubscriber "d1")]), ("d2", [("b2", newAdminSubscriber "d2")])]
        []) "a1").2.2.2.1 "o1" (newAdminSubscriber "o1") (by decide) (by decide)
  · exact (publishAgentOffline_delivers
      (AdminService.mk [("o1", newAdminSubscriber "o1")]
        [("d1", [("a1", newAdminSubscriber "d1")]), ("d2", [("b2", newAdminSubscriber "d2")])]
        []) "a1").2.2.2.2.1 "d1" (newAdminSubscriber "d1") (by decide) (by decide)
  · exact (publishAgentOffline_delivers
      (AdminService.mk [("o1", newAdminSubscriber "o1")]
        [("d1", [("a1", newAdminSubscriber "d1")]), ("d2", [("b2", newAdminSubscriber "d2")])]
        []) "a1").2.2.2.2.2.1 "d2" "b2" (by decide)

/-- C1 counterexample: with the single overview subscriber's frame queue at
capacity, PublishAgentOffline delivers nothing: the registry is unchanged and
the offline frame reaches no queue, refuting delivery to EVERY registered
overview subscriber in every registry state. -/
theorem publishAgentOffline_full_queue_drops :
    PublishAgentOffline fullOverviewService "a1" = fullOverviewService ∧
    some (newOfflineFrame "a1") ∉ fullOverviewSub.frameChan := by
  constructor
  · have hfull : ¬ fullOverviewSub.frameChan.length < FRAME_CHANNEL_BUFFER_SIZE := by
      simp [fullOverviewSub, fullFrameChan, newAdminSubscriber]
    show broadcastDetail (broadcastOverview fullOverviewService
      (some (newOfflineFrame "a1"))) "a1" (some (newOfflineFrame "a1")) = _
    have h1 : broadcastOverview fullOverviewService (some (newOfflineFrame "a1"))
        = fullOverviewService := by
      show AdminService.mk [("o1", enqueueFrame fullOverviewSub (some (newOfflineFrame "a1")))]
        [] [] = _
      rw [enqueueFrame_full _ _ hfull]
      rfl
    rw [h1]
    rfl
  · simp [fullOverviewSub, fullFrameChan, newAdminSubscriber, List.mem_replicate]

/-- C3: per-subscriber enqueue during a broadcast is a non-blocking drop on a
full queue: a registered subscriber whose queue is at capacity keeps its state
unchanged (the item is dropped for it alone, nothing is retried or stored
elsewhere, and the call returns normally), while every registered subscriber
with free queue space receives the item, on all three broadcast paths. -/
theorem broadcast_drop_on_full (s : AdminService) (frame : Option FrameData)
    (agentId : String) (event : Option EventData) :
    (∀ o sub, mapLookup o s.overviewSubs = some sub →
      sub.frameChan.length = FRAME_CHANNEL_BUFFER_SIZE →
      mapLookup o (broadcastOverview s frame).overviewSubs = some sub) ∧
    (∀ o sub, mapLookup o s.overviewSubs = some sub →
      sub.frameChan.length < FRAME_CHANNEL_BUFFER_SIZE →
      mapLookup o (broadcastOverview s frame).overviewSubs
        = some { sub with frameChan := sub.frameChan ++ [frame] }) ∧
    (∀ d sub, mapLookup2 d agentId s.detailSubs = some sub →
      sub.frameChan.length = FRAME_CHANNEL_BUFFER_SIZE →
      mapLookup2 d agentId (broadcastDetail s agentId frame).detailSubs = some sub) ∧
    (∀ d sub, mapLookup2 d agentId s.detailSubs = some sub →
      sub.frameChan.length < FRAME_CHANNEL_BUFFER_SIZE →
      mapLookup2 d agentId (broadcastDetail s agentId frame).detailSubs
        = some { sub with frameChan := sub.frameChan ++ [frame] }) ∧
    (∀ d sub, mapLookup2 d agentId s.eventSubs = some sub →
      sub.eventChan.length = FRAME_CHANNEL_BUFFER_SIZE →
      mapLookup2 d agentId (broadcastEvents s agentId event).eventSubs = some sub) ∧
    (∀ d sub, mapLookup2 d agentId s.eventSubs = some sub →
      sub.eventChan.length < FRAME_CHANNEL_BUFFER_SIZE →
      mapLookup2 d agentId (broadcastEvents s agentId event).eventSubs
        = some { sub with eventChan := sub.eventChan ++ [event] }) := by
  refine ⟨fun o sub h1 h2 => ?_, fun o sub h1 h2 => ?_, fun d sub h1 h2 => ?_,
    fun d sub h1 h2 => ?_, fun d sub h1 h2 => ?_, fun d sub h1 h2 => ?_⟩
  · rw [lookup_broadcastOverview, h1]
    show some (enqueueFrame sub frame) = _
    rw [enqueueFrame_full sub frame (by rw [h2]; exact lt_irrefl _)]
  · rw [lookup_broadcastOverview, h1]
    show some (enqueueFrame sub frame) = _
    rw [enqueueFrame_room sub frame h2]
  · rw [lookup2_broadcastDetail_hit, h1]
    show some (enqueueFrame sub frame) = _
    rw [enqueueFrame_full sub frame (by rw [h2]; exact lt_irrefl _)]
  · rw [lookup2_broadcastDetail_hit, h1]
    show some (enqueueFrame sub frame) = _
    rw [enqueueFrame_room sub frame h2]
  · rw [lookup2_broadcastEvents_hit, h1]
    show some (enqueueEvent sub event) = _
    rw [enqueueEvent_full sub event (by rw [h2]; exact lt_irrefl _)]
  · rw [lookup2_broadcastEvents_hit, h1]
    show some (enqueueEvent sub event) = _
    rw [enqueueEvent_room sub event h2]

/-- C3 witness: with one overview subscriber at capacity and one with room,
broadcasting a frame leaves the full subscriber unchanged while the other
receives the frame. -/
theorem broadcast_drop_on_full_witness :
    mapLookup "o1" (broadcastOverview
        (AdminService.mk [("o1", fullOverviewSub), ("o2", newAdminSubscriber "o2")] [] [])
        (some sampleFrame)).overviewSubs = some fullOverviewSub ∧
    mapLookup "o2" (broadcastOverview
        (AdminService.mk [("o1", fullOverviewSub), ("o2", newAdminSubscriber "o2")] [] [])
        (some sampleFrame)).overviewSubs
      = some { newAdminSubscriber "o2" with frameChan := [some sampleFrame] } := by
  constructor
  · exact (broadcast_drop_on_full
      (AdminService.mk [("o1", fullOverviewSub), ("o2", newAdminSubscriber "o2")] [] [])
      (some sampleFrame) "a1" none).1 "o1" fullOverviewSub
      (by simp [mapLookup])
      (by simp [fullOverviewSub, fullFrameChan, newAdminSubscriber])
  · exact (broadcast_drop_on_full
      (AdminService.mk [("o1", fullOverviewSub), ("o2", newAdminSubscriber "o2")] [] [])
      (some sampleFrame) "a1" none).2.1 "o2" (newAdminSubscriber "o2") (by decide) (by decide)

theorem lookup2_registerDetail_self (s : AdminService) (o a : String) (sub : adminSubscriber) :
    mapLookup2 o a (registerDetail s o a sub).detailSubs = some sub := by
  show (mapLookup o (mapInsert o (mapInsert a sub ((mapLookup o s.detailSubs).getD []))
      s.detailSubs)).bind (mapLookup a) = some sub
  rw [mapLookup_insert_self]
  exact mapLookup_insert_self a sub _

theorem lookup2_registerEvents_self (s : AdminService) (o a : String) (sub : adminSubscriber) :
    mapLookup2 o a (registerEvents s o a sub).eventSubs = some sub := by
  show (mapLookup o (mapInsert o (mapInsert a sub ((mapLookup o s.eventSubs).getD []))
      s.eventSubs)).bind (mapLookup a) = some sub
  rw [mapLookup_insert_self]
  exact mapLookup_insert_self a sub _

theorem mapLookup2_unregisterKey2_self {α : Type} (o a : String)
    (m : List (String × List (String × α))) :
    mapLookup2 o a (unregisterKey2 o a m) = none := by
  unfold mapLookup2 unregisterKey2
  by_cases h : (mapErase a ((mapLookup o m).getD [])).isEmpty
  · rw [if_pos h, mapLookup_erase_self]
    rfl
  · rw [if_neg h, mapLookup_insert_self]
    exact mapLookup_erase_self a _

theorem unregisterKey2_no_empty {α : Type} (o a : String)
    (m : List (String × List (String × α))) (h : ∀ p ∈ m, p.2 ≠ []) :
    ∀ p ∈ unregisterKey2 o a m, p.2 ≠ [] := by
  intro p hp
  unfold unregisterKey2 at hp
  by_cases hemp : (mapErase a ((mapLookup o m).getD [])).isEmpty
  · rw [if_pos hemp] at hp
    exact h p (List.mem_of_mem_filter hp)
  · rw [if_neg hemp] at hp
    rcases mem_mapInsert p o (mapErase a ((mapLookup o m).getD [])) m hp with h2 | h2
    · rw [h2]
      show mapErase a ((mapLookup o m).getD []) ≠ []
      intro hnil
      rw [hnil] at hemp
      exact hemp rfl
    · exact h p h2

theorem unregisterKey2_absent {α : Type} (o a : String)
    (m : List (String × List (String × α))) (h : ∀ p ∈ m, p.2 ≠ [])
    (h2 : mapLookup2 o a m = none) : unregisterKey2 o a m = m := by
  unfold unregisterKey2
  cases hM : mapLookup o m with
  | none =>
      show mapErase o m = m
      exact mapErase_absent o m hM
  | some inner =>
      have hin : mapLookup a inner = none := by
        unfold mapLookup2 at h2
        rw [hM] at h2
        exact h2
      have hne : inner ≠ [] := h (o, inner) (lookup_mem o inner m hM)
      have herase : mapErase a inner = inner := mapErase_absent a inner hin
      have hemp : ¬ inner.isEmpty = true := by
        intro hx
        exact hne (List.isEmpty_iff.mp hx)
      rw [Option.getD_some, herase, if_neg hemp]
      exact mapInsert_same o inner m hM

/-- C8: unregistering a detail or events subscription removes the
(observerId, agentId) entry from the inner map; when the inner map becomes
empty the outer observerId entry is removed too, so a registry with no empty
inner maps never acquires one; and unregistering a key that is not present is
a no-op, not an error. -/
theorem unregister_two_level_cleanup (s : AdminService) (o a : String) :
    mapLookup2 o a (unregisterDetail s o a).detailSubs = none ∧
    ((∀ p ∈ s.detailSubs, p.2 ≠ []) → ∀ p ∈ (unregisterDetail s o a).detailSubs, p.2 ≠ []) ∧
    ((∀ p ∈ s.detailSubs, p.2 ≠ []) → mapLookup2 o a s.detailSubs = none →
      unregisterDetail s o a = s) ∧
    mapLookup2 o a (unregisterEvents s o a).eventSubs = none ∧
    ((∀ p ∈ s.eventSubs, p.2 ≠ []) → ∀ p ∈ (unregisterEvents s o a).eventSubs, p.2 ≠ []) ∧
    ((∀ p ∈ s.eventSubs, p.2 ≠ []) → mapLookup2 o a s.eventSubs = none →
      unregisterEvents s o a = s) := by
  refine ⟨mapLookup2_unregisterKey2_self o a s.detailSubs,
    fun h => unregisterKey2_no_empty o a s.detailSubs h, fun h h2 => ?_,
    mapLookup2_unregisterKey2_self o a s.eventSubs,
    fun h => unregisterKey2_no_empty o a s.eventSubs h, fun h h2 => ?_⟩
  · show { s with detailSubs := unregisterKey2 o a s.detailSubs } = s
    rw [unregisterKey2_absent o a s.detailSubs h h2]
  · show { s with eventSubs := unregisterKey2 o a s.eventSubs } = s
    rw [unregisterKey2_absent o a s.eventSubs h h2]

/-- C8 witness: unregistering the only detail subscription removes the whole
entry, and unregistering an absent observer key leaves the registry exactly
as it was. -/
theorem unregister_two_level_cleanup_witness :
    mapLookup2 "d1" "a1" (unregisterDetail
        (AdminService.mk [] [("d1", [("a1", newAdminSubscriber "d1")])] [])
        "d1" "a1").detailSubs = none ∧
    unregisterDetail (AdminService.mk [] [("d1", [("a1", newAdminSubscriber "d1")])] [])
        "zz" "a1"
      = AdminService.mk [] [("d1", [("a1", newAdminSubscriber "d1")])] [] :=
  ⟨(unregister_two_level_cleanup
      (AdminService.mk [] [("d1", [("a1", newAdminSubscriber "d1")])] []) "d1" "a1").1,
   (unregister_two_level_cleanup
      (AdminService.mk [] [("d1", [("a1", newAdminSubscriber "d1")])] []) "zz" "a1").2.2.1
      (by decide) (by decide)⟩

/-- C2 counterexample: register a subscription under key o1, register a
second one under the same key, then run the first subscription's teardown:
the teardown deletes the key outright, so the registry holds no subscriber
under the key and a subsequent publish delivers to nobody, refuting the claim
that under any interleaving of the first teardown the most recently
registered subscriber receives all future publishes. -/
theorem teardown_after_reregister_removes_key :
    mapLookup "o1" (unregisterOverview (registerOverview (registerOverview NewAdminService
      "o1" (newAdminSubscriber "o1")) "o1" (newAdminSubscriber "o1")) "o1").overviewSubs
      = none ∧
    broadcastOverview (unregisterOverview (registerOverview (registerOverview NewAdminService
        "o1" (newAdminSubscriber "o1")) "o1" (newAdminSubscriber "o1")) "o1")
        (some sampleFrame)
      = unregisterOverview (registerOverview (registerOverview NewAdminService
          "o1" (newAdminSubscriber "o1")) "o1" (newAdminSubscriber "o1")) "o1" := by
  exact ⟨by decide, by decide⟩

/-- C2 (amended): a second registration under an occupied key replaces the
entry (the most recent subscriber is the one looked up), registration and
unregistration keep the key lists duplicate-free so the registry never holds
two subscribers under one key, and when the first subscription's teardown
runs before the second registration the most recent subscriber receives
subsequent publishes; but when the first subscription's teardown runs after
the second registration, the teardown deletes the shared key, removing the
second subscriber's entry, and subsequent publishes for that key reach no
subscriber. -/
theorem duplicate_key_registration (s : AdminService) (o a : String)
    (sub1 sub2 : adminSubscriber) (f : Option FrameData) :
    mapLookup o (registerOverview (registerOverview s o sub1) o sub2).overviewSubs
      = some sub2 ∧
    ((s.overviewSubs.map Prod.fst).Nodup →
      ((registerOverview s o sub1).overviewSubs.map Prod.fst).Nodup ∧
      ((unregisterOverview s o).overviewSubs.map Prod.fst).Nodup) ∧
    mapLookup o (broadcastOverview (registerOverview (unregisterOverview
        (registerOverview s o sub1) o) o sub2) f).overviewSubs
      = some (enqueueFrame sub2 f) ∧
    mapLookup o (unregisterOverview (registerOverview (registerOverview s o sub1) o sub2)
        o).overviewSubs = none ∧
    mapLookup2 o a (registerDetail (registerDetail s o a sub1) o a sub2).detailSubs
      = some sub2 ∧
    mapLookup2 o a (unregisterDetail (registerDetail (registerDetail s o a sub1) o a sub2)
        o a).detailSubs = none ∧
    mapLookup2 o a (registerEvents (registerEvents s o a sub1) o a sub2).eventSubs
      = some sub2 ∧
    mapLookup2 o a (unregisterEvents (registerEvents (registerEvents s o a sub1) o a sub2)
        o a).eventSubs = none := by
  refine ⟨mapLookup_insert_self o sub2 _,
    fun h => ⟨nodupkeys_insert o sub1 s.overviewSubs h, nodupkeys_erase o s.overviewSubs h⟩,
    ?_, mapLookup_erase_self o _,
    lookup2_registerDetail_self _ o a sub2,
    mapLookup2_unregisterKey2_self o a _,
    lookup2_registerEvents_self _ o a sub2,
    mapLookup2_unregisterKey2_self o a _⟩
  rw [lookup_broadcastOverview]
  show (mapLookup o (mapInsert o sub2 _)).map _ = _
  rw [mapLookup_insert_self]
  rfl

/-- C2 witness: from the empty registry, registering twice under key o1
leaves the second subscriber as the one the key resolves to, and the key
lists stay duplicate-free. -/
theorem duplicate_key_registration_witness :
    mapLookup "o1" (registerOverview (registerOverview NewAdminService "o1"
        (newAdminSubscriber "x")) "o1" (newAdminSubscriber "y")).overviewSubs
      = some (newAdminSubscriber "y") ∧
    (((registerOverview NewAdminService "o1"
        (newAdminSubscriber "x")).overviewSubs.map Prod.fst).Nodup ∧
      ((unregisterOverview NewAdminService "o1").overviewSubs.map Prod.fst).Nodup) :=
  ⟨(duplicate_key_registration NewAdminService "o1" "a1" (newAdminSubscriber "x")
      (newAdminSubscriber "y") none).1,
   (duplicate_key_registration NewAdminService "o1" "a1" (newAdminSubscriber "x")
      (newAdminSubscriber "y") none).2.1 (by decide)⟩

/-- C10: the client cache stores every received frame under its agent id with
no special case for the offline marker: after receiving the offline frame for
agent A, the cache still holds an entry for A whose image string is empty and
whose timestamp is 0, and GetLatestFrames returns it; receiving a frame never
removes any agent's cache entry. -/
theorem storeFrame_no_offline_special_case (m : List (String × frameSnapshot))
    (f : FrameData) (A k : String) :
    mapLookup f.agentId (receiveOverviewFrame m f)
      = some (frameSnapshot.mk f.agentId (base64Encode f.imageData) f.isPreview f.timestamp) ∧
    frameSnapshot.mk A "" true 0 ∈ GetLatestFrames (receiveOverviewFrame m (newOfflineFrame A)) ∧
    ((mapLookup k m).isSome = true → (mapLookup k (receiveOverviewFrame m f)).isSome = true) := by
  refine ⟨mapLookup_insert_self _ _ _, ?_, ?_⟩
  · exact lookup_mem_snd A (frameSnapshot.mk A "" true 0)
      (receiveOverviewFrame m (newOfflineFrame A)) (mapLookup_insert_self A _ m)
  · intro h
    by_cases hk : k = f.agentId
    · rw [hk]
      show (mapLookup f.agentId (mapInsert f.agentId _ m)).isSome = true
      rw [mapLookup_insert_self]
      rfl
    · show (mapLookup k (mapInsert f.agentId _ m)).isSome = true
      rw [mapLookup_insert_ne f.agentId k _ m hk]
      exact h

/-- C10 witness: with one cached snapshot for agent x, receiving the offline
frame for agent a1 keeps the entry for x and adds the offline snapshot. -/
theorem storeFrame_no_offline_special_case_witness :
    frameSnapshot.mk "a1" "" true 0
      ∈ GetLatestFrames (receiveOverviewFrame [("x", frameSnapshot.mk "x" "img" true 5)]
          (newOfflineFrame "a1")) ∧
    (mapLookup "x" (receiveOverviewFrame [("x", frameSnapshot.mk "x" "img" true 5)]
        (newOfflineFrame "a1"))).isSome = true :=
  ⟨(storeFrame_no_offline_special_case [("x", frameSnapshot.mk "x" "img" true 5)]
      (newOfflineFrame "a1") "a1" "x").2.1,
   (storeFrame_no_offline_special_case [("x", frameSnapshot.mk "x" "img" true 5)]
      (newOfflineFrame "a1") "a1" "x").2.2 (by decide)⟩

/-- C4: for every sequence of incoming frames carrying agent A, while an
overview subscriber and a detail(A) subscriber are registered with enough
queue space for the whole sequence, both subscribers' queues end up holding
every published frame appended in exactly the publish order, and a detail(B)
subscriber with B distinct from A receives none of them. -/
theorem publishFrames_fifo_isolation (o dA dB A B : String)
    (subO subA subB : adminSubscriber)
    (es : List (String × List (String × adminSubscriber))) (frames : List FrameData)
    (hBA : B ≠ A)
    (hAll : ∀ f ∈ frames, f.agentId = A)
    (hO : subO.frameChan.length + frames.length ≤ FRAME_CHANNEL_BUFFER_SIZE)
    (hA : subA.frameChan.length + frames.length ≤ FRAME_CHANNEL_BUFFER_SIZE) :
    publishFrames (AdminService.mk [(o, subO)]
        [(dA, [(A, subA)]), (dB, [(B, subB)])] es) frames
      = AdminService.mk
          [(o, { subO with frameChan := subO.frameChan ++ frames.map some })]
          [(dA, [(A, { subA with frameChan := subA.frameChan ++ frames.map some })]),
           (dB, [(B, subB)])] es := by
  induction frames generalizing subO subA with
  | nil => simp [publishFrames]
  | cons f rest ih =>
      have hfA : f.agentId = A := hAll f (List.mem_cons_self f rest)
      have hOlt : subO.frameChan.length < FRAME_CHANNEL_BUFFER_SIZE := by
        simp only [List.length_cons] at hO
        omega
      have hAlt : subA.frameChan.length < FRAME_CHANNEL_BUFFER_SIZE := by
        simp only [List.length_cons] at hA
        omega
      have hstep : HandleIncomingFrame (AdminService.mk [(o, subO)]
          [(dA, [(A, subA)]), (dB, [(B, subB)])] es) (some f)
        = AdminService.mk [(o, { subO with frameChan := subO.frameChan ++ [some f] })]
            [(dA, [(A, { subA with frameChan := subA.frameChan ++ [some f] })]),
             (dB, [(B, subB)])] es := by
        show broadcastDetail (broadcastOverview (AdminService.mk [(o, subO)]
          [(dA, [(A, subA)]), (dB, [(B, subB)])] es) (some f)) f.agentId (some f) = _
        rw [hfA]
        simp [broadcastOverview, broadcastDetail, hBA,
          enqueueFrame_room subO (some f) hOlt, enqueueFrame_room subA (some f) hAlt]
      show publishFrames (HandleIncomingFrame (AdminService.mk [(o, subO)]
        [(dA, [(A, subA)]), (dB, [(B, subB)])] es) (some f)) rest = _
      rw [hstep]
      rw [ih { subO with frameChan := subO.frameChan ++ [some f] }
          { subA with frameChan := subA.frameChan ++ [some f] }
          (fun g hg => hAll g (List.mem_cons_of_mem f hg))
          (by
            have hlen : (subO.frameChan ++ [some f]).length
                = subO.frameChan.length + 1 := by simp
            simp only [List.length_cons] at hO
            show (subO.frameChan ++ [some f]).length + rest.length
              ≤ FRAME_CHANNEL_BUFFER_SIZE
            omega)
          (by
            have hlen : (subA.frameChan ++ [some f]).length
                = subA.frameChan.length + 1 := by simp
            simp only [List.length_cons] at hA
            show (subA.frameChan ++ [some f]).length + rest.length
              ≤ FRAME_CHANNEL_BUFFER_SIZE
            omega)]
      simp [List.append_assoc]

/-- C4 witness: two frames for agent a1 published in order reach the overview
subscriber and the detail(a1) subscriber in that order, while the detail(b2)
subscriber's queue stays empty. -/
theorem publishFrames_fifo_isolation_witness :
    publishFrames (AdminService.mk [("o1", newAdminSubscriber "o1")]
        [("d1", [("a1", newAdminSubscriber "d1")]), ("d2", [("b2", newAdminSubscriber "d2")])]
        []) [sampleFrame, FrameData.mk "a1" [4] 200 false]
      = AdminService.mk
          [("o1", { newAdminSubscriber "o1" with
            frameChan := [some sampleFrame, some (FrameData.mk "a1" [4] 200 false)] })]
          [("d1", [("a1", { newAdminSubscriber "d1" with
            frameChan := [some sampleFrame, some (FrameData.mk "a1" [4] 200 false)] })]),
           ("d2", [("b2", newAdminSubscriber "d2")])] [] :=
  publishFrames_fifo_isolation "o1" "d1" "d2" "a1" "b2"
    (newAdminSubscriber "o1") (newAdminSubscriber "d1") (newAdminSubscriber "d2")
    [] [sampleFrame, FrameData.mk "a1" [4] 200 false]
    (by decide) (by decide) (by decide) (by decide)
